import Mathlib

/-!
Shallow embedding of the Calibre MCP server repository
(research orchestration engine, RPC tool server, boolean full-text search),
with theorems checking the natural-language specification against the code.

Python strings are modelled through their character lists; Python `int`
configuration values are modelled as `Nat` (the configurations the
preferences UI produces are non-negative).
-/

namespace Calibre

/-! ## Python string primitives -/

/-- Python `str.strip()` on the character list: drop whitespace at both ends. -/
def pyStripChars (cs : List Char) : List Char :=
  ((cs.dropWhile Char.isWhitespace).reverse.dropWhile Char.isWhitespace).reverse

/-- Python `str.strip()`. -/
def pyStrip (s : String) : String := ⟨pyStripChars s.data⟩

/-- Split a character list into maximal runs of characters not satisfying `p`
(the separator predicate), dropping the separators.  `cur` is the reversed
run currently being collected. -/
def tokenizeAux (p : Char → Bool) : List Char → List Char → List (List Char)
  | [], cur => if cur.isEmpty then [] else [cur.reverse]
  | c :: rest, cur =>
    if p c then
      if cur.isEmpty then tokenizeAux p rest []
      else cur.reverse :: tokenizeAux p rest []
    else tokenizeAux p rest (c :: cur)

def tokenizeChars (p : Char → Bool) (cs : List Char) : List (List Char) :=
  tokenizeAux p cs []

/-- Tokens of `s` separated by characters satisfying `p`; empty tokens never
occur (this models `[t for t in re.split(...) if t]` and `str.split()`). -/
def strTokens (p : Char → Bool) (s : String) : List String :=
  (tokenizeChars p s.data).map (fun t => ⟨t⟩)

/-- Python `str.split()` without arguments: split on whitespace runs. -/
def pyWords (s : String) : List String := strTokens Char.isWhitespace s

def strUpper (s : String) : String := ⟨s.data.map Char.toUpper⟩

def strLower (s : String) : String := ⟨s.data.map Char.toLower⟩

/-- First index of `needle` inside `hay` (list form), `i` indices already
consumed; models Python `str.find` (on the lower-cased inputs used by the
code). -/
def findSubAux (needle : List Char) : List Char → Nat → Option Nat
  | [], i => if needle.isEmpty then some i else none
  | c :: rest, i =>
    if needle.isPrefixOf (c :: rest) then some i
    else findSubAux needle rest (i + 1)

/-- Python `hay.find(needle)`, as `Option Nat` instead of `-1` for absence. -/
def strFind (hay needle : String) : Option Nat := findSubAux needle.data hay.data 0

/-- Python slice `s[:n]`. -/
def strTake (s : String) (n : Nat) : String := ⟨s.data.take n⟩

/-- Python slice `s[a:b]` (clipped at the end of the string, `a ≤ b`). -/
def strSlice (s : String) (a b : Nat) : String := ⟨(s.data.drop a).take (b - a)⟩

/-! ## MetadataRepository (infra/metadata_sqlite.py) -/

/-- Separator characters of `re.split(r"[\s,;]+", raw)` in
`_parse_boolean_query`. -/
def isQuerySepChar (c : Char) : Bool := c.isWhitespace || c == ',' || c == ';'

/-- `tok.upper() in ("AND", "OR")` normalisation of one rough token. -/
def normalizeToken (t : String) : String :=
  if strUpper t = "AND" ∨ strUpper t = "OR" then strUpper t else t

/-- The token loop of `_parse_boolean_query`: `done` are the closed groups,
`current` the group being built, `lastOp` the pending operator
(`"AND"` or `"OR"`).  At the end the current group is part of the group
list (Python holds it in `groups` by reference). -/
def parseLoop : List String → List (List String) → List String → String → List (List String)
  | [], done, current, _ => done ++ [current]
  | tok :: rest, done, current, lastOp =>
    if tok = "AND" then parseLoop rest done current "AND"
    else if tok = "OR" then parseLoop rest done current "OR"
    else if lastOp = "OR" ∧ current ≠ [] then parseLoop rest (done ++ [current]) [tok] "AND"
    else parseLoop rest done (current ++ [tok]) "AND"

/-- `MetadataRepository._parse_boolean_query`. -/
def parse_boolean_query (raw : String) : List (List String) :=
  let stripped := pyStrip raw
  if stripped = "" then []
  else
    let tokens := (strTokens isQuerySepChar stripped).map normalizeToken
    if tokens.isEmpty then []
    else (parseLoop tokens [] [] "AND").filter (fun g => !g.isEmpty)

/-- The ISBN normalisation at the top of
`MetadataRepository.get_book_by_isbn`: keep a character when it is a digit
or upper-cases to `X`; the character itself (with its original case) is
appended. -/
def normalizeIsbn (isbn : String) : String :=
  ⟨isbn.data.filter (fun c => c.isDigit || c.toUpper == 'X')⟩

/-- SQL `REPLACE(REPLACE(v, '-', ''), ' ', '')`. -/
def stripIsbnSeps (s : String) : String :=
  ⟨s.data.filter (fun c => !(c == '-' || c == ' '))⟩

/-- One row of the Calibre `books` table (joined with `comments`);
`isbn = none` and `comments = none` model SQL NULL. -/
structure BookRow where
  id : Nat
  title : String
  isbn : Option String
  comments : Option String
deriving Repr, DecidableEq

/-- One row of the Calibre `identifiers` table. -/
structure IdentRow where
  book : Nat
  idType : String
  val : String
deriving Repr, DecidableEq

/-- The part of `metadata.db` the repository reads. -/
structure MetadataDb where
  books : List BookRow
  identifiers : List IdentRow
deriving Repr, DecidableEq

/-- Result row of `get_book_by_isbn`:
`(book_id, title, isbn, comments)`. -/
abbrev IsbnRow := Nat × String × Option String × String

/-- The identifier-table join of `get_book_by_isbn` (first SQL query):
rows with `lower(i.type) IN ('isbn','isbn13')` whose separator-stripped
value equals the normalised input, joined to their book;
`COALESCE(b.isbn, i.val)` and `COALESCE(c.text, '')` as in the SQL. -/
def identJoinRows (db : MetadataDb) (normalized : String) : List IsbnRow :=
  db.identifiers.filterMap (fun i =>
    if (strLower i.idType = "isbn" ∨ strLower i.idType = "isbn13")
        ∧ stripIsbnSeps i.val = normalized then
      (db.books.find? (fun b => b.id == i.book)).map
        (fun b => (b.id, b.title, some (b.isbn.getD i.val), b.comments.getD ""))
    else none)

/-- The direct-field fallback of `get_book_by_isbn` (second SQL query):
first book whose separator-stripped `COALESCE(isbn, '')` equals the
normalised input. -/
def directIsbnRow (db : MetadataDb) (normalized : String) : Option IsbnRow :=
  (db.books.find? (fun b => stripIsbnSeps (b.isbn.getD "") == normalized)).map
    (fun b => (b.id, b.title, b.isbn, b.comments.getD ""))

/-- `MetadataRepository.get_book_by_isbn`. -/
def get_book_by_isbn (db : MetadataDb) (isbn : String) : Option IsbnRow :=
  let normalized := normalizeIsbn isbn
  if normalized = "" then none
  else
    match (identJoinRows db normalized).head? with
    | some row => some row
    | none => directIsbnRow db normalized

/-- `MetadataRepository._build_snippet` (the `window` parameter defaults to
200 at the call site in `search_fulltext`). -/
def build_snippet (text query : String) (window : Nat) : String :=
  let cleaned := pyStrip text
  if cleaned = "" then ""
  else
    match strFind (strLower cleaned) (strLower query) with
    | none => strTake cleaned window
    | some idx =>
      let start := idx - window / 2
      strSlice cleaned start (start + window)

/-- `FulltextHit` from core/models.py. -/
structure FulltextHit where
  book_id : Nat
  title : String
  isbn : Option String
  snippet : String
deriving Repr, DecidableEq

/-- `lower(field) LIKE lower('%term%')`: case-insensitive substring
containment (terms are plain keywords without LIKE wildcards). -/
def likeContains (field term : String) : Bool :=
  (strFind (strLower field) (strLower term)).isSome

/-- A term matches a row when it occurs in the title, the ISBN or the
comments (the three LIKE clauses of `base_clause`). -/
def rowFieldMatch (b : BookRow) (term : String) : Bool :=
  likeContains b.title term || likeContains (b.isbn.getD "") term
    || likeContains (b.comments.getD "") term

/-- AND over the terms of one group. -/
def groupMatches (b : BookRow) (g : List String) : Bool := g.all (rowFieldMatch b)

/-- OR over the groups. -/
def groupsMatch (b : BookRow) (gs : List (List String)) : Bool :=
  gs.any (groupMatches b)

/-- `ORDER BY b.id` (insertion sort by book id, stable). -/
def insertById (b : BookRow) : List BookRow → List BookRow
  | [] => [b]
  | x :: xs => if b.id ≤ x.id then b :: x :: xs else x :: insertById b xs

def sortById (l : List BookRow) : List BookRow := l.foldr insertById []

/-- The snippet of one result row in `search_fulltext`
(lines 160–163): the comment-based snippet, or `row["title"] or ""` when
it is empty. -/
def hit_snippet (b : BookRow) (raw : String) : String :=
  let snippet0 := build_snippet (b.comments.getD "") raw 200
  if snippet0 = "" then (if b.title = "" then "" else b.title) else snippet0

/-- `MetadataRepository.search_fulltext`. -/
def search_fulltext (db : MetadataDb) (query : String) (limit : Nat) : List FulltextHit :=
  let raw := pyStrip query
  if raw = "" then []
  else
    let groups := parse_boolean_query raw
    if groups.isEmpty then []
    else
      let rows := (sortById (db.books.filter (fun b => groupsMatch b groups))).take limit
      rows.map (fun b => ⟨b.id, b.title, b.isbn, hit_snippet b raw⟩)

/-! ## MCP WebSocket server (mcp_protocol.py, websocket_server.py)

Tool argument objects and content blocks are JSON values on the wire; the
model keeps them as type parameters `Arg` and `Out` (the server only moves
them around). -/

/-- A response object as built by `make_error_response` /
`make_result_response`: `id` plus the mutually exclusive `result` and
`error` fields; `error` carries `(code, message)`. -/
structure RpcResponse (Res : Type) where
  id : String
  result : Option Res
  error : Option (String × String)
deriving DecidableEq, Repr

/-- `mcp_protocol.make_error_response` (the Python `code` parameter
defaults to `"internal_error"`; call sites relying on the default pass it
explicitly here). -/
def make_error_response (request_id message code : String) : RpcResponse Res :=
  ⟨request_id, none, some (code, message)⟩

/-- `mcp_protocol.make_result_response`. -/
def make_result_response (request_id : String) (result : Res) : RpcResponse Res :=
  ⟨request_id, some result, none⟩

/-- Arguments after `MCPWebSocketServer._prepare_arguments`: either passed
through flat, or nested as `{"input": arguments}`. -/
inductive PreparedArgs (Arg : Type)
  | flat (a : Arg)
  | wrapped (a : Arg)
deriving DecidableEq, Repr

/-- One FastMCP tool as the server sees it: description, declared input
schema (modelled by whether its properties are exactly the single `input`
object), and the tool body, which may raise (`Except.error` is the raised
exception's message). -/
structure ServerTool (Arg Out : Type) where
  description : String
  wrapsInput : Bool
  impl : PreparedArgs Arg → Except String (List Out)

/-- `MCPWebSocketServer._prepare_arguments`. -/
def prepare_arguments {Arg : Type} (wrapsInput : Bool) (a : Arg) : PreparedArgs Arg :=
  if wrapsInput then .wrapped a else .flat a

/-- `MCPToolDescription` / the objects `_list_tools` returns. -/
structure ToolDescriptor where
  name : String
  description : String
  wrapsInput : Bool
deriving DecidableEq, Repr

/-- A `result` payload: `{"tools": [...]}` from `list_tools` or
`{"content": [...]}` from `call_tool`. -/
inductive RpcResult (Out : Type)
  | tools (ts : List ToolDescriptor)
  | content (blocks : List Out)
deriving DecidableEq, Repr

/-- The server: its immutable tool table (`FastMCP`'s tool manager),
populated once at construction. -/
structure ServerModel (Arg Out : Type) where
  tools : List (String × ServerTool Arg Out)

/-- `MCPWebSocketServer._list_tools`. -/
def list_tools_result {Arg Out : Type} (srv : ServerModel Arg Out) : RpcResult Out :=
  .tools (srv.tools.map (fun t => ⟨t.1, t.2.description, t.2.wrapsInput⟩))

/-- The `params` object of a `call_tool` request (`params.get("name")`,
`params.get("arguments")`). -/
structure CallParams (Arg : Type) where
  name : Option String
  arguments : Option Arg
deriving DecidableEq, Repr

/-- `MCPWebSocketServer._call_tool`. -/
def call_tool {Arg Out : Type} [Inhabited Arg] (srv : ServerModel Arg Out)
    (request_id : String) (params : CallParams Arg) : RpcResponse (RpcResult Out) :=
  let arguments := params.arguments.getD default
  match params.name with
  | none => make_error_response request_id "Missing tool name" "bad_request"
  | some name =>
    if name = "" then make_error_response request_id "Missing tool name" "bad_request"
    else
      match (srv.tools.find? (fun t => t.1 == name)).map (fun t => t.2) with
      | none => make_error_response request_id ("Unknown tool '" ++ name ++ "'") "not_found"
      | some tool =>
        match tool.impl (prepare_arguments tool.wrapsInput arguments) with
        | .error exc => make_error_response request_id ("Tool failed: " ++ exc) "internal_error"
        | .ok blocks => make_result_response request_id (.content blocks)

/-- One inbound WebSocket message: either text that fails to decode as
JSON, or a decoded payload with its `id`, `method` and `params` fields
(absent fields are `none`). -/
inductive InboundMessage (Arg : Type)
  | invalidJson
  | payload (id : Option String) (method : Option String) (params : CallParams Arg)
deriving DecidableEq, Repr

/-- `str(payload.get("id") or "-")`. -/
def requestIdOf (id : Option String) : String :=
  match id with
  | none => "-"
  | some s => if s = "" then "-" else s

/-- The body of the `async for` loop in
`MCPWebSocketServer._handle_client`: the single response the server sends
for one inbound message. -/
def handle_message {Arg Out : Type} [Inhabited Arg] (srv : ServerModel Arg Out) :
    InboundMessage Arg → RpcResponse (RpcResult Out)
  | .invalidJson => make_error_response "-" "Invalid JSON" "internal_error"
  | .payload id method params =>
    let request_id := requestIdOf id
    match method with
    | some "list_tools" => make_result_response request_id (list_tools_result srv)
    | some "call_tool" => call_tool srv request_id params
    | _ => make_error_response request_id "Unknown method" "unknown_method"

/-- `MCPWebSocketServer._handle_client`: messages of one connection are
served strictly in order, one response per message, and no message
terminates the loop. -/
def handle_client {Arg Out : Type} [Inhabited Arg] (srv : ServerModel Arg Out)
    (msgs : List (InboundMessage Arg)) : List (RpcResponse (RpcResult Out)) :=
  msgs.map (handle_message srv)

/-! ## RechercheAgent (calibre_plugin/recherche_agent.py)

External collaborators (the MCP server behind `_call_mcp` and the chat
completion service behind `send_chat`) are injected as oracles in
`AgentEnv`; `Except.error` models a raised `MCPTransportError` (or, for
`finalChat`, an exception out of `send_chat`).  Every operation returns
the list of observable external calls it performed (`AgentEvent`). -/

/-- `SearchHit` dataclass. -/
structure SearchHit where
  book_id : Option Nat
  title : String
  isbn : Option String
  snippet : String
  origin_query : Option String
deriving DecidableEq, Repr

/-- The type of `SearchHit.identity_key()` values. -/
abbrev IdKey := Option Nat × Option String

/-- `SearchHit.identity_key`. -/
def SearchHit.identityKey (h : SearchHit) : IdKey := (h.book_id, h.isbn)

/-- `EnrichedHit` dataclass. -/
structure EnrichedHit where
  hit : SearchHit
  excerpt_text : Option String
  excerpt_source : Option String
deriving DecidableEq, Repr

/-- A raw hit dict as extracted from the search tool response
(`raw.get(...)`; absent keys are `none`). -/
structure RawHit where
  book_id : Option Nat
  title : Option String
  isbn : Option String
  snippet : Option String
deriving DecidableEq, Repr

/-- The result payload of the excerpt tool (`payload.get("text")`,
`payload.get("excerpt")`, `payload.get("source_hint")`). -/
structure ExcerptPayload where
  text : Option String
  excerpt : Option String
  source_hint : Option String
deriving DecidableEq, Repr

/-- The preference values `answer_with_sources` and its helpers read. -/
structure AgentConfig where
  max_search_rounds : Nat
  min_hits_before_stop : Nat
  max_total_hits : Nat
  max_hits_total : Nat
  max_hits_per_query : Nat
  target_sources : Nat
  max_excerpts : Nat
  max_excerpt_chars : Nat
deriving DecidableEq, Repr

/-- Observable external calls of one `answer_with_sources` execution. -/
inductive AgentEvent
  | listToolsCall
  | planKeywordsCall
  | roundStart (idx : Nat)
  | searchCall (query : String)
  | roundEnd (idx : Nat) (totalHits : Nat)
  | followupPlanCall
  | excerptCall (isbn : String)
  | finalChatCall
deriving DecidableEq, Repr

/-- The injected collaborators:
* `listTools` — the `list_tools` RPC (`Except.ok` carries the tool names);
* `ftSearch`  — one `call_tool` round trip of `_run_fulltext_search`
  (query and limit), already reduced to the raw hit dicts;
* `planKeywords` — the reply of `_extract_keywords_multi`
  (primary and secondary keyword lists, produced by the chat service or
  the heuristic fallback; planning failure is absorbed there and never
  raises);
* `planFollowup` — Modelled from the spec: `_plan_followup_query` is
  called by `answer_with_sources` (round ≥ 1) but is missing from the
  source; per spec §4.6 the generation service is asked for one refined
  follow-up query, and `none` means no new query can be produced, which
  stops the loop;
* `excerptTool` — one `_call_excerpt_tool` round trip (isbn, max chars);
* `finalChat` — `_build_prompt` + `_ask_llm`: the prompt is a pure
  function of the question and the enriched hits, and the chat service
  may raise. -/
structure AgentEnv where
  listTools : Except String (List String)
  ftSearch : String → Nat → Except String (List RawHit)
  planKeywords : String → List String × List String
  planFollowup : String → List SearchHit → Option String
  excerptTool : String → Nat → Except String ExcerptPayload
  finalChat : String → List EnrichedHit → Except String String

/-- The agent's mutable fields: the tool cache `_tool_schemas` (by name)
and the session state `_last_question` / `_last_hits`. -/
structure SessionState where
  tool_names : List String
  last_question : Option String
  last_hits : List EnrichedHit
deriving DecidableEq, Repr

def FULLTEXT_TOOL : String := "calibre_fulltext_search"

def EXCERPT_TOOL : String := "calibre_get_excerpt"

/-- `RechercheAgent._ensure_tools_cached`: skip when the cache is
populated; otherwise call `list_tools` and fail when it reports no
tools. -/
def ensure_tools_cached (env : AgentEnv) (st : SessionState) :
    List AgentEvent × Except String SessionState :=
  if !st.tool_names.isEmpty then ([], .ok st)
  else
    match env.listTools with
    | .error e => ([.listToolsCall], .error e)
    | .ok names =>
      if names.isEmpty then
        ([.listToolsCall], .error "MCP-Server meldet keine Tools ueber list_tools")
      else ([.listToolsCall], .ok { st with tool_names := names })

/-- `RechercheAgent._resolve_effective_question`. -/
def resolve_effective_question (last_question : Option String) (question : String) : String :=
  let base := pyStrip question
  match last_question with
  | none => base
  | some lq =>
    if lq = "" then base
    else if (pyWords base).length ≤ 6 then
      base ++ " (im Kontext von: " ++ lq ++ ")"
    else base

/-- The per-language query preparation of round 0 in
`answer_with_sources` (lines 119–147): a single multi-token keyword is
expanded into the phrase followed by its distinct tokens; otherwise the
non-empty keywords are used as queries. -/
def prepare_language_queries (kws : List String) : List String :=
  match kws with
  | [first] =>
    let tokens := pyWords first
    if tokens.length > 1 then
      tokens.foldl (fun acc t => if t ∈ acc then acc else acc ++ [t]) [first]
    else [first]
  | _ => kws.filter (fun q => q != "")

/-- `RechercheAgent._run_fulltext_search`: one search tool call, raw hit
dicts mapped to `SearchHit` with the originating query recorded. -/
def run_fulltext_search (env : AgentEnv) (cfg : AgentConfig) (query : String) :
    List AgentEvent × Except String (List SearchHit) :=
  match env.ftSearch query cfg.max_hits_per_query with
  | .error e => ([.searchCall query], .error e)
  | .ok raws =>
    ([.searchCall query],
     .ok (raws.map (fun r => ⟨r.book_id, r.title.getD "", r.isbn, r.snippet.getD "", some query⟩)))

/-- The dedup-and-append loop shared (textually duplicated) by
`_run_search_plan` (lines 360–367) and the per-round merge of
`answer_with_sources` (lines 180–190): skip a hit whose identity key was
seen, otherwise append it and its key, and break once the aggregate has
reached `cap` (the length check happens after the append). -/
def merge_hits_capped (cap : Nat) :
    List SearchHit → List SearchHit → List IdKey → List SearchHit × List IdKey
  | [], agg, seen => (agg, seen)
  | h :: rest, agg, seen =>
    if h.identityKey ∈ seen then merge_hits_capped cap rest agg seen
    else
      let agg' := agg ++ [h]
      let seen' := seen ++ [h.identityKey]
      if cap ≤ agg'.length then (agg', seen')
      else merge_hits_capped cap rest agg' seen'

/-- The query loop of `RechercheAgent._run_search_plan`: run each query,
merge with the cap `max_hits_total`, and stop early once
`target_sources` is reached; the final result is truncated to
`max_hits_total`. -/
def run_search_plan_go (env : AgentEnv) (cfg : AgentConfig) :
    List String → List SearchHit → List IdKey →
    List AgentEvent × Except String (List SearchHit)
  | [], agg, _ => ([], .ok (agg.take cfg.max_hits_total))
  | q :: rest, agg, seen =>
    match run_fulltext_search env cfg q with
    | (evs, .error e) => (evs, .error e)
    | (evs, .ok hits) =>
      let merged := merge_hits_capped cfg.max_hits_total hits agg seen
      if cfg.target_sources ≤ merged.1.length then
        (evs, .ok (merged.1.take cfg.max_hits_total))
      else
        let r := run_search_plan_go env cfg rest merged.1 merged.2
        (evs ++ r.1, r.2)

/-- `RechercheAgent._run_search_plan`. -/
def run_search_plan (env : AgentEnv) (cfg : AgentConfig) (st : SessionState)
    (queries : List String) : List AgentEvent × Except String (List SearchHit) :=
  if !(st.tool_names.contains FULLTEXT_TOOL) then
    ([], .error ("Tool '" ++ FULLTEXT_TOOL ++ "' ist auf dem MCP-Server nicht verfuegbar."))
  else run_search_plan_go env cfg queries [] []

/-- Round 0 of the search loop in `answer_with_sources`: keyword
extraction for both languages, query preparation, then the primary-
language searches followed by the secondary-language searches.  Returns
the round's hits and the queries appended to `all_queries`. -/
def round_zero_search (env : AgentEnv) (cfg : AgentConfig) (st : SessionState)
    (effective_question : String) :
    List AgentEvent × Except String (List SearchHit × List String) :=
  let pk := env.planKeywords effective_question
  let secondary_kws := pk.2
  let primary_kws :=
    if pk.1.isEmpty && secondary_kws.isEmpty then [effective_question] else pk.1
  let primary_queries := prepare_language_queries primary_kws
  let secondary_queries :=
    if secondary_kws.isEmpty then [] else prepare_language_queries secondary_kws
  match (if primary_queries.isEmpty then ([], Except.ok [])
         else run_search_plan env cfg st primary_queries) with
  | (evs1, .error e) => ([.planKeywordsCall] ++ evs1, .error e)
  | (evs1, .ok hits_primary) =>
    match (if secondary_queries.isEmpty then ([], Except.ok [])
           else run_search_plan env cfg st secondary_queries) with
    | (evs2, .error e) => ([.planKeywordsCall] ++ evs1 ++ evs2, .error e)
    | (evs2, .ok hits_secondary) =>
      ([.planKeywordsCall] ++ evs1 ++ evs2,
       .ok (hits_primary ++ hits_secondary,
            (if primary_queries.isEmpty then [] else primary_queries)
              ++ (if secondary_queries.isEmpty then [] else secondary_queries)))

/-- A refinement round (round index ≥ 1) of the search loop: plan one
follow-up query (`none` stops the loop) and run it. -/
def followup_round_search (env : AgentEnv) (cfg : AgentConfig) (st : SessionState)
    (question : String) (hits_so_far : List SearchHit) :
    List AgentEvent × Except String (Option (List SearchHit × String)) :=
  match env.planFollowup question hits_so_far with
  | none => ([.followupPlanCall], .ok none)
  | some fq =>
    match run_search_plan env cfg st [fq] with
    | (evs, .error e) => ([.followupPlanCall] ++ evs, .error e)
    | (evs, .ok hits) => ([.followupPlanCall] ++ evs, .ok (some (hits, fq)))

/-- The running aggregate of the multi-round loop:
`all_hits`, `all_ids` and `all_queries`. -/
structure LoopState where
  all_hits : List SearchHit
  all_ids : List IdKey
  all_queries : List String
deriving DecidableEq, Repr

/-- The body of one loop iteration before the merge: round 0 searches by
planned keywords, later rounds by one follow-up query; `ok none` is the
`break` of a refinement round without a follow-up query. -/
def round_step (env : AgentEnv) (cfg : AgentConfig) (st : SessionState)
    (question effective_question : String) (roundIndex : Nat) (ls : LoopState) :
    List AgentEvent × Except String (Option (List SearchHit × List String)) :=
  if roundIndex = 0 then
    match round_zero_search env cfg st effective_question with
    | (evs, .error e) => (evs, .error e)
    | (evs, .ok (hits, qs)) => (evs, .ok (some (hits, qs)))
  else
    match followup_round_search env cfg st question ls.all_hits with
    | (evs, .error e) => (evs, .error e)
    | (evs, .ok none) => (evs, .ok none)
    | (evs, .ok (some (hits, fq))) => (evs, .ok (some (hits, [fq])))

/-- The `for round_index in range(max_rounds)` loop of
`answer_with_sources` (lines 111–199): execute the round's searches,
merge the round hits into the aggregate with the cap `max_total_hits`,
then stop when the aggregate reached `max_total_hits` or
`min_hits_before_stop`; a refinement round that plans no query stops the
loop.  `remaining` is the number of loop iterations range() still
allows.  Each executed iteration emits `.roundStart`; after the merge,
`.roundEnd` carries the aggregated hit count checked at the round
boundary. -/
def run_rounds (env : AgentEnv) (cfg : AgentConfig) (st : SessionState)
    (question effective_question : String) :
    Nat → Nat → LoopState → List AgentEvent × Except String LoopState
  | _, 0, ls => ([], .ok ls)
  | roundIndex, remaining + 1, ls =>
    match round_step env cfg st question effective_question roundIndex ls with
    | (evs, .error e) => ([.roundStart roundIndex] ++ evs, .error e)
    | (evs, .ok none) => ([.roundStart roundIndex] ++ evs, .ok ls)
    | (evs, .ok (some (round_hits, qs))) =>
      let merged := merge_hits_capped cfg.max_total_hits round_hits ls.all_hits ls.all_ids
      let ls2 : LoopState := ⟨merged.1, merged.2, ls.all_queries ++ qs⟩
      let evs2 := [.roundStart roundIndex] ++ evs ++ [.roundEnd roundIndex ls2.all_hits.length]
      if cfg.max_total_hits ≤ ls2.all_hits.length then (evs2, .ok ls2)
      else if cfg.min_hits_before_stop ≤ ls2.all_hits.length then (evs2, .ok ls2)
      else
        let r := run_rounds env cfg st question effective_question (roundIndex + 1) remaining ls2
        (evs2 ++ r.1, r.2)

/-- Python truthiness of an optional string (`None` and `""` are falsy). -/
def pyTruthyStr (o : Option String) : Bool := !(o.getD "" == "")

/-- `payload.get("text") or payload.get("excerpt") or ""`. -/
def excerpt_text_of (p : ExcerptPayload) : String :=
  if pyTruthyStr p.text then p.text.getD ""
  else if pyTruthyStr p.excerpt then p.excerpt.getD ""
  else ""

/-- The per-hit loop of `_enrich_hits_with_excerpts`: excerpt calls only
for hits with a truthy ISBN while fewer than `max_excerpts` excerpts
were fetched; a failing excerpt call leaves the hit without an excerpt
and does not count. -/
def enrich_go (env : AgentEnv) (cfg : AgentConfig) :
    List SearchHit → Nat → List AgentEvent × List EnrichedHit
  | [], _ => ([], [])
  | h :: rest, excerpt_count =>
    if pyTruthyStr h.isbn ∧ excerpt_count < cfg.max_excerpts then
      let isbn := h.isbn.getD ""
      match env.excerptTool isbn cfg.max_excerpt_chars with
      | .error _ =>
        let r := enrich_go env cfg rest excerpt_count
        ([.excerptCall isbn] ++ r.1, ⟨h, none, none⟩ :: r.2)
      | .ok payload =>
        let r := enrich_go env cfg rest (excerpt_count + 1)
        ([.excerptCall isbn] ++ r.1,
         ⟨h, some (excerpt_text_of payload), payload.source_hint⟩ :: r.2)
    else
      let r := enrich_go env cfg rest excerpt_count
      (r.1, ⟨h, none, none⟩ :: r.2)

/-- `RechercheAgent._enrich_hits_with_excerpts`. -/
def enrich_hits_with_excerpts (env : AgentEnv) (cfg : AgentConfig) (st : SessionState)
    (hits : List SearchHit) : List AgentEvent × List EnrichedHit :=
  if !(st.tool_names.contains EXCERPT_TOOL) then
    ([], hits.map (fun h => ⟨h, none, none⟩))
  else enrich_go env cfg hits 0

/-- Injection used to derive decidable equality of `Except` values. -/
def exceptToSum {ε α : Type} : Except ε α → ε ⊕ α
  | .error e => .inl e
  | .ok a => .inr a

instance {ε α : Type} [DecidableEq ε] [DecidableEq α] : DecidableEq (Except ε α) := fun a b =>
  decidable_of_iff (exceptToSum a = exceptToSum b)
    (by cases a <;> cases b <;> simp [exceptToSum])

/-- The observable outcome of one `answer_with_sources` call: the
external calls performed, the returned pair (or the uncaught exception
as `Except.error`), and the agent's mutable state afterwards. -/
structure AnswerOutcome where
  events : List AgentEvent
  result : Except String (String × List EnrichedHit)
  state : SessionState
deriving DecidableEq, Repr

/-- `RechercheAgent.answer_with_sources`.  Note that the session state is
updated directly after enrichment, before the final chat call; an
exception out of `finalChat` is not caught (`MCPTransportError` is, and
yields the `"System: ..."` message). -/
def answer_with_sources (env : AgentEnv) (cfg : AgentConfig) (st : SessionState)
    (question : String) : AnswerOutcome :=
  let q := pyStrip question
  if q = "" then ⟨[], .ok ("", []), st⟩
  else
    match ensure_tools_cached env st with
    | (evs1, .error e) =>
      ⟨evs1, .ok ("System: Recherche via MCP fehlgeschlagen: " ++ e, []), st⟩
    | (evs1, .ok st1) =>
      let effective_question := resolve_effective_question st1.last_question q
      match run_rounds env cfg st1 q effective_question 0 cfg.max_search_rounds ⟨[], [], []⟩ with
      | (evs2, .error e) =>
        ⟨evs1 ++ evs2, .ok ("System: Recherche via MCP fehlgeschlagen: " ++ e, []), st1⟩
      | (evs2, .ok ls) =>
        if ls.all_hits.isEmpty then
          ⟨evs1 ++ evs2, .ok ("System: Keine passenden Treffer im MCP-Server gefunden.", []), st1⟩
        else
          let enr := enrich_hits_with_excerpts env cfg st1 ls.all_hits
          let st2 : SessionState := { st1 with last_question := some q, last_hits := enr.2 }
          match env.finalChat q enr.2 with
          | .error e => ⟨evs1 ++ evs2 ++ enr.1 ++ [.finalChatCall], .error e, st2⟩
          | .ok text => ⟨evs1 ++ evs2 ++ enr.1 ++ [.finalChatCall], .ok (text, enr.2), st2⟩

/-! ## Event classifiers -/

/-- Is an event the start of a search-loop round? -/
def isRoundStart : AgentEvent → Bool
  | .roundStart _ => true
  | _ => false

/-- Number of search rounds recorded in an event list. -/
def searchRounds (evs : List AgentEvent) : Nat := evs.countP isRoundStart

/-- Is an event a round marker (start or boundary)? -/
def isRoundEvent : AgentEvent → Bool
  | .roundStart _ => true
  | .roundEnd _ _ => true
  | _ => false

/-- Event lists without round markers (everything emitted outside the
loop bookkeeping of `run_rounds`). -/
def RoundFree (evs : List AgentEvent) : Prop := ∀ e ∈ evs, isRoundEvent e = false

/-- The dedup invariant of an aggregate and its seen-key set: the
aggregated hits carry pairwise distinct identity keys and the key set
holds exactly those keys. -/
def KeysInv (agg : List SearchHit) (seen : List IdKey) : Prop :=
  (agg.map SearchHit.identityKey).Nodup
    ∧ ∀ k, k ∈ seen ↔ k ∈ agg.map SearchHit.identityKey

/-! ## Concrete fixtures used by witnesses and counterexamples -/

/-- Default preference values of the agent. -/
def cfgA : AgentConfig :=
  { max_search_rounds := 3, min_hits_before_stop := 3, max_total_hits := 20,
    max_hits_total := 12, max_hits_per_query := 6, target_sources := 3,
    max_excerpts := 4, max_excerpt_chars := 1200 }

/-- A fresh session (no cached tools, no prior question). -/
def stFresh : SessionState := ⟨[], none, []⟩

def rawHitA : RawHit := ⟨some 7, some "Title A", some "111", some "snippet a"⟩

def rawHitB : RawHit := ⟨some 8, some "Title B", none, some "snippet b"⟩

def rawHitC : RawHit := ⟨some 9, some "Title C", some "333", some "snippet c"⟩

/-- A fully succeeding environment: two tools, one keyword, two hits per
search, no follow-up query, working excerpt and chat services. -/
def envA : AgentEnv :=
  { listTools := .ok [FULLTEXT_TOOL, EXCERPT_TOOL]
    ftSearch := fun _ _ => .ok [rawHitA, rawHitB]
    planKeywords := fun _ => (["foo"], [])
    planFollowup := fun _ _ => none
    excerptTool := fun _ _ => .ok ⟨some "long excerpt", none, some "metadata.comments"⟩
    finalChat := fun _ _ => .ok "ANSWER" }

/-- Like `envA` but every search returns three hits (reaches the default
`min_hits_before_stop`). -/
def envHits3 : AgentEnv :=
  { envA with ftSearch := fun _ _ => .ok [rawHitA, rawHitB, rawHitC] }

/-- Like `envA` but the final chat call raises. -/
def envChatFails : AgentEnv :=
  { envA with finalChat := fun _ _ => .error "auth failure" }

/-- Like `envA` but every search RPC fails with a transport error. -/
def envSearchFails : AgentEnv :=
  { envA with ftSearch := fun _ _ => .error "Verbindung zum MCP-Server fehlgeschlagen" }

/-- Configuration with `max_total_hits = 0`. -/
def cfgM0 : AgentConfig := { cfgA with max_total_hits := 0 }

/-- Library with one book whose identifier value is the upper-case
`"123X"`. -/
def dbX : MetadataDb := ⟨[⟨1, "Book", none, some "text"⟩], [⟨1, "isbn", "123X"⟩]⟩

/-- Library used by the witness of the identifier lookup: the identifier
table resolves the ISBN, the direct field would resolve a different
book. -/
def dbW : MetadataDb :=
  ⟨[⟨2, "Ident Book", none, some "comment w"⟩, ⟨3, "Direct Book", some "9783446429338", none⟩],
   [⟨2, "ISBN13", "978-3-446-42933-8"⟩]⟩

/-- Annotation text for the snippet counterexample: 200 `a`s, then the
word `keyword`, then 93 `b`s. -/
def c7text : String := ⟨List.replicate 200 'a' ++ "keyword".data ++ List.replicate 93 'b'⟩

def c7query : String := "foo OR keyword"

/-- Library with a single book whose annotation is `c7text`. -/
def dbC7 : MetadataDb := ⟨[⟨5, "T5", none, some c7text⟩], []⟩

/-- A concrete server with a tool that always raises and a healthy tool. -/
def srvC5 : ServerModel String String :=
  ⟨[("boom", ⟨"always fails", false, fun _ => .error "kaput"⟩),
    ("echo", ⟨"echoes its input", true, fun _ => .ok ["ok"]⟩)]⟩

/-! ## General lemmas -/

theorem pyStrip_of_whitespace (s : String) (h : ∀ c ∈ s.data, c.isWhitespace) :
    pyStrip s = "" := by
  have h1 : s.data.dropWhile Char.isWhitespace = [] :=
    List.dropWhile_eq_nil_iff.mpr h
  simp [pyStrip, pyStripChars, h1]

theorem parse_boolean_query_no_empty_group (s : String) :
    ∀ g ∈ parse_boolean_query s, g ≠ [] := by
  intro g hg
  unfold parse_boolean_query at hg
  dsimp only [] at hg
  split at hg
  · simp at hg
  · split at hg
    · simp at hg
    · rw [List.mem_filter] at hg
      intro hge
      subst hge
      simp at hg

theorem parse_boolean_query_of_whitespace (s : String)
    (h : ∀ c ∈ s.data, c.isWhitespace) : parse_boolean_query s = [] := by
  unfold parse_boolean_query
  simp [pyStrip_of_whitespace s h]

theorem roundFree_nil : RoundFree [] := by
  intro e he
  cases he

theorem RoundFree.append {a b : List AgentEvent} (ha : RoundFree a) (hb : RoundFree b) :
    RoundFree (a ++ b) := by
  intro e he
  rcases List.mem_append.mp he with h | h
  · exact ha e h
  · exact hb e h

theorem countP_isRoundStart_of_roundFree {evs : List AgentEvent} (h : RoundFree evs) :
    evs.countP isRoundStart = 0 := by
  rw [List.countP_eq_zero]
  intro e he hstart
  have hre := h e he
  cases e <;> simp_all [isRoundEvent, isRoundStart]

theorem roundFree_run_fulltext_search (env : AgentEnv) (cfg : AgentConfig) (q : String) :
    RoundFree (run_fulltext_search env cfg q).1 := by
  unfold run_fulltext_search
  rcases env.ftSearch q cfg.max_hits_per_query with e | raws <;>
  · intro ev hev
    simp at hev
    subst hev
    rfl

theorem roundFree_run_search_plan_go (env : AgentEnv) (cfg : AgentConfig) :
    ∀ (qs : List String) (agg : List SearchHit) (seen : List IdKey),
      RoundFree (run_search_plan_go env cfg qs agg seen).1 := by
  intro qs
  induction qs with
  | nil =>
    intro agg seen e he
    simp [run_search_plan_go] at he
  | cons q rest ih =>
    intro agg seen
    unfold run_search_plan_go
    rcases hq : run_fulltext_search env cfg q with ⟨evs, res⟩
    have hevs : RoundFree evs := by
      have h := roundFree_run_fulltext_search env cfg q
      rw [hq] at h
      exact h
    cases res with
    | error e => simpa using hevs
    | ok hits =>
      dsimp only []
      split
      · exact hevs
      · exact hevs.append (ih _ _)

theorem roundFree_run_search_plan (env : AgentEnv) (cfg : AgentConfig) (st : SessionState)
    (qs : List String) : RoundFree (run_search_plan env cfg st qs).1 := by
  unfold run_search_plan
  split
  · intro e he
    simp at he
  · exact roundFree_run_search_plan_go env cfg qs [] []

theorem roundFree_singleton (e : AgentEvent) (h : isRoundEvent e = false) :
    RoundFree [e] := by
  intro x hx
  simp at hx
  subst hx
  exact h

theorem roundFree_of_plan_branch {env : AgentEnv} {cfg : AgentConfig} {st : SessionState}
    {qs : List String} {c : Prop} [Decidable c]
    {evs : List AgentEvent} {res : Except String (List SearchHit)}
    (h : (if c then (([] : List AgentEvent), (Except.ok [] : Except String (List SearchHit)))
          else run_search_plan env cfg st qs) = (evs, res)) :
    RoundFree evs := by
  split at h
  · injection h with h1 h2
    subst h1
    exact roundFree_nil
  · have hp := roundFree_run_search_plan env cfg st qs
    rw [h] at hp
    exact hp

theorem roundFree_round_zero_search (env : AgentEnv) (cfg : AgentConfig) (st : SessionState)
    (effq : String) : RoundFree (round_zero_search env cfg st effq).1 := by
  unfold round_zero_search
  dsimp only []
  split
  · rename_i evs1 e1 heq1
    exact (roundFree_singleton AgentEvent.planKeywordsCall rfl).append
      (roundFree_of_plan_branch heq1)
  · rename_i evs1 hits1 heq1
    split
    · rename_i evs2 e2 heq2
      exact ((roundFree_singleton AgentEvent.planKeywordsCall rfl).append
        (roundFree_of_plan_branch heq1)).append (roundFree_of_plan_branch heq2)
    · rename_i evs2 hits2 heq2
      exact ((roundFree_singleton AgentEvent.planKeywordsCall rfl).append
        (roundFree_of_plan_branch heq1)).append (roundFree_of_plan_branch heq2)

theorem roundFree_followup_round_search (env : AgentEnv) (cfg : AgentConfig)
    (st : SessionState) (question : String) (hits : List SearchHit) :
    RoundFree (followup_round_search env cfg st question hits).1 := by
  unfold followup_round_search
  rcases env.planFollowup question hits with _ | fq
  · exact roundFree_singleton AgentEvent.followupPlanCall rfl
  · dsimp only []
    rcases hr : run_search_plan env cfg st [fq] with ⟨evs, res⟩
    have hevs : RoundFree evs := by
      have h := roundFree_run_search_plan env cfg st [fq]
      rw [hr] at h
      exact h
    rcases res with e | hits2 <;>
      exact (roundFree_singleton AgentEvent.followupPlanCall rfl).append hevs

theorem roundFree_round_step (env : AgentEnv) (cfg : AgentConfig) (st : SessionState)
    (q effq : String) (i : Nat) (ls : LoopState) :
    RoundFree (round_step env cfg st q effq i ls).1 := by
  unfold round_step
  split
  · rcases hz : round_zero_search env cfg st effq with ⟨evs, res⟩
    have hevs : RoundFree evs := by
      have h := roundFree_round_zero_search env cfg st effq
      rw [hz] at h
      exact h
    rcases res with e | ⟨hits, qs⟩ <;> exact hevs
  · rcases hf : followup_round_search env cfg st q ls.all_hits with ⟨evs, res⟩
    have hevs : RoundFree evs := by
      have h := roundFree_followup_round_search env cfg st q ls.all_hits
      rw [hf] at h
      exact h
    rcases res with e | opt
    · exact hevs
    · rcases opt with _ | ⟨hits, fq⟩ <;> exact hevs

theorem run_rounds_countP_le (env : AgentEnv) (cfg : AgentConfig) (st : SessionState)
    (q effq : String) :
    ∀ (r i : Nat) (ls : LoopState),
      (run_rounds env cfg st q effq i r ls).1.countP isRoundStart ≤ r := by
  intro r
  induction r with
  | zero =>
    intro i ls
    simp [run_rounds]
  | succ r ih =>
    intro i ls
    unfold run_rounds
    rcases hs : round_step env cfg st q effq i ls with ⟨evs, res⟩
    have hevs : RoundFree evs := by
      have h := roundFree_round_step env cfg st q effq i ls
      rw [hs] at h
      exact h
    have hc : evs.countP isRoundStart = 0 := countP_isRoundStart_of_roundFree hevs
    rcases res with e | opt
    · simp [List.countP_append, List.countP_cons, hc, isRoundStart]
    · rcases opt with _ | ⟨round_hits, qs⟩
      · simp [List.countP_append, List.countP_cons, hc, isRoundStart]
      · dsimp only []
        split
        · simp [List.countP_append, List.countP_cons, hc, isRoundStart]
        · split
          · simp [List.countP_append, List.countP_cons, hc, isRoundStart]
          · have hrec := ih (i + 1) ⟨(merge_hits_capped cfg.max_total_hits round_hits
              ls.all_hits ls.all_ids).1,
              (merge_hits_capped cfg.max_total_hits round_hits ls.all_hits ls.all_ids).2,
              ls.all_queries ++ qs⟩
            simp [List.countP_append, List.countP_cons, hc, isRoundStart]
            omega

theorem roundFree_ensure_tools_cached (env : AgentEnv) (st : SessionState) :
    RoundFree (ensure_tools_cached env st).1 := by
  unfold ensure_tools_cached
  split
  · exact roundFree_nil
  · rcases env.listTools with e | names
    · exact roundFree_singleton AgentEvent.listToolsCall rfl
    · dsimp only []
      split <;> exact roundFree_singleton AgentEvent.listToolsCall rfl

theorem ensure_tools_cached_preserves (env : AgentEnv) (st st1 : SessionState)
    (h : (ensure_tools_cached env st).2 = .ok st1) :
    st1.last_question = st.last_question ∧ st1.last_hits = st.last_hits := by
  unfold ensure_tools_cached at h
  split at h
  · simp at h
    subst h
    exact ⟨rfl, rfl⟩
  · rcases he : env.listTools with e | names <;> rw [he] at h
    · simp at h
    · dsimp only [] at h
      split at h
      · simp at h
      · simp at h
        subst h
        exact ⟨rfl, rfl⟩

theorem roundFree_enrich_go (env : AgentEnv) (cfg : AgentConfig) :
    ∀ (hits : List SearchHit) (c : Nat), RoundFree (enrich_go env cfg hits c).1 := by
  intro hits
  induction hits with
  | nil =>
    intro c
    exact roundFree_nil
  | cons h rest ih =>
    intro c
    unfold enrich_go
    dsimp only []
    split
    · rcases env.excerptTool (h.isbn.getD "") cfg.max_excerpt_chars with e | payload <;>
        exact (roundFree_singleton (AgentEvent.excerptCall (h.isbn.getD "")) rfl).append (ih _)
    · exact ih c

theorem roundFree_enrich_hits (env : AgentEnv) (cfg : AgentConfig) (st : SessionState)
    (hits : List SearchHit) : RoundFree (enrich_hits_with_excerpts env cfg st hits).1 := by
  unfold enrich_hits_with_excerpts
  split
  · exact roundFree_nil
  · exact roundFree_enrich_go env cfg hits 0

theorem enrich_go_map_hit (env : AgentEnv) (cfg : AgentConfig) :
    ∀ (hits : List SearchHit) (c : Nat),
      ((enrich_go env cfg hits c).2).map (fun e => e.hit) = hits := by
  intro hits
  induction hits with
  | nil => intro c; rfl
  | cons h rest ih =>
    intro c
    unfold enrich_go
    dsimp only []
    split
    · rcases env.excerptTool (h.isbn.getD "") cfg.max_excerpt_chars with e | payload <;>
        simp [ih]
    · simp [ih]

theorem enrich_hits_map_hit (env : AgentEnv) (cfg : AgentConfig) (st : SessionState)
    (hits : List SearchHit) :
    ((enrich_hits_with_excerpts env cfg st hits).2).map (fun e => e.hit) = hits := by
  unfold enrich_hits_with_excerpts
  split
  · simp [Function.comp_def]
  · exact enrich_go_map_hit env cfg hits 0

theorem enrich_hits_length (env : AgentEnv) (cfg : AgentConfig) (st : SessionState)
    (hits : List SearchHit) :
    ((enrich_hits_with_excerpts env cfg st hits).2).length = hits.length := by
  have h := enrich_hits_map_hit env cfg st hits
  calc ((enrich_hits_with_excerpts env cfg st hits).2).length
      = (((enrich_hits_with_excerpts env cfg st hits).2).map (fun e => e.hit)).length := by
        rw [List.length_map]
    _ = hits.length := by rw [h]

theorem merge_hits_capped_length_le (cap : Nat) :
    ∀ (new agg : List SearchHit) (seen : List IdKey), agg.length < cap →
      (merge_hits_capped cap new agg seen).1.length ≤ cap := by
  intro new
  induction new with
  | nil =>
    intro agg seen h
    simpa [merge_hits_capped] using Nat.le_of_lt h
  | cons h rest ih =>
    intro agg seen hlt
    unfold merge_hits_capped
    split
    · exact ih agg seen hlt
    · dsimp only []
      split
      · simp
        omega
      · rename_i hcap
        refine ih _ _ ?_
        simp at hcap ⊢
        omega

theorem merge_hits_capped_keys (cap : Nat) :
    ∀ (new agg : List SearchHit) (seen : List IdKey), KeysInv agg seen →
      KeysInv (merge_hits_capped cap new agg seen).1 (merge_hits_capped cap new agg seen).2
      ∧ ∃ t, (merge_hits_capped cap new agg seen).1 = agg ++ t
          ∧ ∀ h ∈ t, h.identityKey ∉ seen := by
  intro new
  induction new with
  | nil =>
    intro agg seen hinv
    exact ⟨hinv, [], by simp [merge_hits_capped], by simp⟩
  | cons h rest ih =>
    intro agg seen hinv
    unfold merge_hits_capped
    split
    · exact ih agg seen hinv
    · rename_i hnot
      have hkey : h.identityKey ∉ agg.map SearchHit.identityKey :=
        fun hmem => hnot ((hinv.2 _).mpr hmem)
      have hinv2 : KeysInv (agg ++ [h]) (seen ++ [h.identityKey]) := by
        constructor
        · simp [List.nodup_append, hinv.1, hkey]
        · intro k
          simp only [List.mem_append, List.map_append, List.mem_singleton,
            List.map_cons, List.map_nil]
          rw [hinv.2 k]
      dsimp only []
      split
      · refine ⟨hinv2, [h], rfl, ?_⟩
        intro x hx
        simp at hx
        subst hx
        exact hnot
      · rcases ih (agg ++ [h]) (seen ++ [h.identityKey]) hinv2 with ⟨hinv3, t, ht, htf⟩
        refine ⟨hinv3, [h] ++ t, ?_, ?_⟩
        · rw [ht, List.append_assoc]
        · intro x hx
          rcases List.mem_append.mp hx with hx | hx
          · simp at hx
            subst hx
            exact hnot
          · intro hmem
            exact htf x hx (List.mem_append.mpr (Or.inl hmem))

theorem run_rounds_hits_le (env : AgentEnv) (cfg : AgentConfig) (st : SessionState)
    (q effq : String) :
    ∀ (r i : Nat) (ls : LoopState), ls.all_hits.length < cfg.max_total_hits →
      ∀ ls2, (run_rounds env cfg st q effq i r ls).2 = .ok ls2 →
        ls2.all_hits.length ≤ cfg.max_total_hits := by
  intro r
  induction r with
  | zero =>
    intro i ls hlt ls2 hok
    simp [run_rounds] at hok
    subst hok
    exact Nat.le_of_lt hlt
  | succ r ih =>
    intro i ls hlt ls2 hok
    unfold run_rounds at hok
    rcases hs : round_step env cfg st q effq i ls with ⟨evs, res⟩
    rw [hs] at hok
    rcases res with e | opt
    · simp at hok
    · rcases opt with _ | ⟨round_hits, qs⟩
      · simp at hok
        subst hok
        exact Nat.le_of_lt hlt
      · dsimp only [] at hok
        split at hok
        · simp at hok
          subst hok
          exact merge_hits_capped_length_le cfg.max_total_hits round_hits
            ls.all_hits ls.all_ids hlt
        · split at hok
          · simp at hok
            subst hok
            exact merge_hits_capped_length_le cfg.max_total_hits round_hits
              ls.all_hits ls.all_ids hlt
          · rename_i hcap hmin
            refine ih (i + 1) _ ?_ ls2 hok
            exact Nat.lt_of_not_le hcap

theorem run_rounds_keys (env : AgentEnv) (cfg : AgentConfig) (st : SessionState)
    (q effq : String) :
    ∀ (r i : Nat) (ls : LoopState), KeysInv ls.all_hits ls.all_ids →
      ∀ ls2, (run_rounds env cfg st q effq i r ls).2 = .ok ls2 →
        KeysInv ls2.all_hits ls2.all_ids := by
  intro r
  induction r with
  | zero =>
    intro i ls hinv ls2 hok
    simp [run_rounds] at hok
    subst hok
    exact hinv
  | succ r ih =>
    intro i ls hinv ls2 hok
    unfold run_rounds at hok
    rcases hs : round_step env cfg st q effq i ls with ⟨evs, res⟩
    rw [hs] at hok
    rcases res with e | opt
    · simp at hok
    · rcases opt with _ | ⟨round_hits, qs⟩
      · simp at hok
        subst hok
        exact hinv
      · have hmerge := (merge_hits_capped_keys cfg.max_total_hits round_hits
          ls.all_hits ls.all_ids hinv).1
        dsimp only [] at hok
        split at hok
        · simp at hok
          subst hok
          exact hmerge
        · split at hok
          · simp at hok
            subst hok
            exact hmerge
          · exact ih (i + 1) _ hmerge ls2 hok

theorem roundFree_no_roundStart {evs : List AgentEvent} (hrf : RoundFree evs) (j : Nat) :
    AgentEvent.roundStart j ∉ evs := by
  intro hj
  have h := hrf _ hj
  simp [isRoundEvent] at h

theorem roundFree_no_roundEnd {evs : List AgentEvent} (hrf : RoundFree evs) (j c : Nat) :
    AgentEvent.roundEnd j c ∉ evs := by
  intro hj
  have h := hrf _ hj
  simp [isRoundEvent] at h

theorem run_rounds_indices_ge (env : AgentEnv) (cfg : AgentConfig) (st : SessionState)
    (q effq : String) :
    ∀ (r i : Nat) (ls : LoopState),
      (∀ j, AgentEvent.roundStart j ∈ (run_rounds env cfg st q effq i r ls).1 → i ≤ j)
      ∧ (∀ j c, AgentEvent.roundEnd j c ∈ (run_rounds env cfg st q effq i r ls).1 → i ≤ j) := by
  intro r
  induction r with
  | zero =>
    intro i ls
    constructor
    · intro j hj
      simp [run_rounds] at hj
    · intro j c hj
      simp [run_rounds] at hj
  | succ r ih =>
    intro i ls
    unfold run_rounds
    rcases hs : round_step env cfg st q effq i ls with ⟨evs, res⟩
    have hrf : RoundFree evs := by
      have h := roundFree_round_step env cfg st q effq i ls
      rw [hs] at h
      exact h
    rcases res with e | opt
    · constructor
      · intro j hj
        simp [roundFree_no_roundStart hrf] at hj
        omega
      · intro j c hj
        simp [roundFree_no_roundEnd hrf] at hj
    · rcases opt with _ | ⟨round_hits, qs⟩
      · constructor
        · intro j hj
          simp [roundFree_no_roundStart hrf] at hj
          omega
        · intro j c hj
          simp [roundFree_no_roundEnd hrf] at hj
      · dsimp only []
        split
        · constructor
          · intro j hj
            simp [roundFree_no_roundStart hrf] at hj
            omega
          · intro j c hj
            simp [roundFree_no_roundEnd hrf] at hj
            omega
        · split
          · constructor
            · intro j hj
              simp [roundFree_no_roundStart hrf] at hj
              omega
            · intro j c hj
              simp [roundFree_no_roundEnd hrf] at hj
              omega
          · constructor
            · intro j hj
              simp [roundFree_no_roundStart hrf] at hj
              rcases hj with hj | hj
              · omega
              · have := (ih (i + 1) _).1 j hj
                omega
            · intro j c hj
              simp [roundFree_no_roundEnd hrf] at hj
              rcases hj with hj | hj
              · omega
              · have := (ih (i + 1) _).2 j c hj
                omega

theorem run_rounds_early_stop (env : AgentEnv) (cfg : AgentConfig) (st : SessionState)
    (q effq : String) :
    ∀ (r i : Nat) (ls : LoopState) (k c : Nat),
      AgentEvent.roundEnd k c ∈ (run_rounds env cfg st q effq i r ls).1 →
      cfg.min_hits_before_stop ≤ c →
      AgentEvent.roundStart (k + 1) ∉ (run_rounds env cfg st q effq i r ls).1 := by
  intro r
  induction r with
  | zero =>
    intro i ls k c hEnd hMin
    simp [run_rounds] at hEnd
  | succ r ih =>
    intro i ls k c hEnd hMin
    unfold run_rounds at hEnd ⊢
    rcases hs : round_step env cfg st q effq i ls with ⟨evs, res⟩
    rw [hs] at hEnd
    have hrf : RoundFree evs := by
      have h := roundFree_round_step env cfg st q effq i ls
      rw [hs] at h
      exact h
    rcases res with e | opt
    · simp [roundFree_no_roundEnd hrf] at hEnd
    · rcases opt with _ | ⟨round_hits, qs⟩
      · simp [roundFree_no_roundEnd hrf] at hEnd
      · dsimp only [] at hEnd ⊢
        by_cases hcap : cfg.max_total_hits ≤ (merge_hits_capped cfg.max_total_hits
            round_hits ls.all_hits ls.all_ids).1.length
        · rw [if_pos hcap] at hEnd ⊢
          simp [roundFree_no_roundEnd hrf] at hEnd
          intro hstart
          simp [roundFree_no_roundStart hrf] at hstart
          omega
        · rw [if_neg hcap] at hEnd ⊢
          by_cases hmin : cfg.min_hits_before_stop ≤ (merge_hits_capped cfg.max_total_hits
              round_hits ls.all_hits ls.all_ids).1.length
          · rw [if_pos hmin] at hEnd ⊢
            simp [roundFree_no_roundEnd hrf] at hEnd
            intro hstart
            simp [roundFree_no_roundStart hrf] at hstart
            omega
          · rw [if_neg hmin] at hEnd ⊢
            simp [roundFree_no_roundEnd hrf] at hEnd
            intro hstart
            simp [roundFree_no_roundStart hrf] at hstart
            rcases hEnd with ⟨hk, hc⟩ | hEnd
            · omega
            · rcases hstart with hstart | hstart
              · have hge := (run_rounds_indices_ge env cfg st q effq r (i + 1) _).2 k c hEnd
                omega
              · exact ih (i + 1) _ k c hEnd hMin hstart

theorem answer_events_shape (env : AgentEnv) (cfg : AgentConfig) (st : SessionState)
    (q : String) :
    (∃ (pre post : List AgentEvent) (st1 : SessionState),
      (answer_with_sources env cfg st q).events
        = pre ++ (run_rounds env cfg st1 (pyStrip q)
            (resolve_effective_question st1.last_question (pyStrip q))
            0 cfg.max_search_rounds ⟨[], [], []⟩).1 ++ post
      ∧ RoundFree pre ∧ RoundFree post)
    ∨ RoundFree (answer_with_sources env cfg st q).events := by
  unfold answer_with_sources
  dsimp only []
  split
  · exact Or.inr roundFree_nil
  · split
    · rename_i evs1 e1 heq1
      refine Or.inr ?_
      have h := roundFree_ensure_tools_cached env st
      rw [heq1] at h
      exact h
    · rename_i evs1 st1 heq1
      have hrf1 : RoundFree evs1 := by
        have h := roundFree_ensure_tools_cached env st
        rw [heq1] at h
        exact h
      split
      · rename_i evs2 e2 heq2
        refine Or.inl ⟨evs1, [], st1, ?_, hrf1, roundFree_nil⟩
        rw [heq2]
        simp
      · rename_i evs2 ls heq2
        split
        · refine Or.inl ⟨evs1, [], st1, ?_, hrf1, roundFree_nil⟩
          rw [heq2]
          simp
        · rcases hfc : env.finalChat (pyStrip q)
              (enrich_hits_with_excerpts env cfg st1 ls.all_hits).2 with e | text0
          · refine Or.inl ⟨evs1, (enrich_hits_with_excerpts env cfg st1 ls.all_hits).1
                ++ [AgentEvent.finalChatCall], st1, ?_, hrf1, ?_⟩
            · rw [heq2]
              simp
            · exact (roundFree_enrich_hits env cfg st1 ls.all_hits).append
                (roundFree_singleton AgentEvent.finalChatCall rfl)
          · refine Or.inl ⟨evs1, (enrich_hits_with_excerpts env cfg st1 ls.all_hits).1
                ++ [AgentEvent.finalChatCall], st1, ?_, hrf1, ?_⟩
            · rw [heq2]
              simp
            · exact (roundFree_enrich_hits env cfg st1 ls.all_hits).append
                (roundFree_singleton AgentEvent.finalChatCall rfl)

/-! ## Claim theorems -/

/-- Claim C8: the boolean query parser maps `"a AND b"` to `[["a","b"]]`,
`"a OR b"` to `[["a"],["b"]]`, `"a AND b OR c"` to `[["a","b"],["c"]]`,
every empty or whitespace-only input to the empty list, and its output
never contains an empty group. -/
theorem C8_parser_contract :
    parse_boolean_query "a AND b" = [["a", "b"]]
    ∧ parse_boolean_query "a OR b" = [["a"], ["b"]]
    ∧ parse_boolean_query "a AND b OR c" = [["a", "b"], ["c"]]
    ∧ (∀ s : String, (∀ c ∈ s.data, c.isWhitespace) → parse_boolean_query s = [])
    ∧ (∀ s : String, ∀ g ∈ parse_boolean_query s, g ≠ []) := by
  refine ⟨by decide, by decide, by decide, parse_boolean_query_of_whitespace, ?_⟩
  exact parse_boolean_query_no_empty_group

/-- Witness for C8: the universally quantified parts evaluated on the
whitespace-only input `"  "` and on `"a OR b"`. -/
theorem C8_parser_contract_witness :
    parse_boolean_query "  " = [] ∧ ["a"] ≠ ([] : List String) := by
  constructor
  · exact C8_parser_contract.2.2.2.1 "  " (by decide)
  · exact C8_parser_contract.2.2.2.2 "a OR b" ["a"] (by decide)

/-- Counterexample for C6: the code keeps a lowercase `x` lowercase in the
normalised identifier (it appends the original character after the
case-insensitive membership test), so `"123x"` does not normalise to
`"123X"`, and a lookup of `"123x"` misses a stored identifier `"123X"`
that the claimed normalisation would find. -/
theorem C6_counterexample :
    normalizeIsbn "123x" = "123x"
    ∧ normalizeIsbn "123x" ≠ "123X"
    ∧ get_book_by_isbn dbX "123x" = none
    ∧ get_book_by_isbn dbX "123X" = some (1, "Book", some "123X", "text") := by
  decide

/-- Claim C6 (amended): the lookup retains only digits and the letter X
(case-insensitive) with each kept character preserving its original case
(so a lowercase `"x"` stays lowercase), `"978-3-446-42933-8"` normalises
to `"9783446429338"`; an empty normalised input yields nothing, the
identifier-table join is tried first and wins when it matches, and
otherwise the direct-field match with separators stripped decides. -/
theorem C6_isbn_lookup_amended :
    normalizeIsbn "978-3-446-42933-8" = "9783446429338"
    ∧ normalizeIsbn "12-3x" = "123x"
    ∧ (∀ (db : MetadataDb) (q : String), normalizeIsbn q = "" →
        get_book_by_isbn db q = none)
    ∧ (∀ (db : MetadataDb) (q : String) (row : IsbnRow), normalizeIsbn q ≠ "" →
        (identJoinRows db (normalizeIsbn q)).head? = some row →
        get_book_by_isbn db q = some row)
    ∧ (∀ (db : MetadataDb) (q : String), normalizeIsbn q ≠ "" →
        (identJoinRows db (normalizeIsbn q)).head? = none →
        get_book_by_isbn db q = directIsbnRow db (normalizeIsbn q)) := by
  refine ⟨by decide, by decide, ?_, ?_, ?_⟩
  · intro db q h
    simp [get_book_by_isbn, h]
  · intro db q row hne hhead
    simp [get_book_by_isbn, hne, hhead]
  · intro db q hne hhead
    simp [get_book_by_isbn, hne, hhead]

/-- Witness for C6: in `dbW` the identifier join resolves
`"978-3-446-42933-8"` (to the book without a direct ISBN field), and the
all-separator input `""` resolves to nothing. -/
theorem C6_isbn_lookup_amended_witness :
    get_book_by_isbn dbW "978-3-446-42933-8"
      = some (2, "Ident Book", some "978-3-446-42933-8", "comment w")
    ∧ get_book_by_isbn dbW "---" = none := by
  constructor
  · exact C6_isbn_lookup_amended.2.2.2.1 dbW "978-3-446-42933-8"
      (2, "Ident Book", some "978-3-446-42933-8", "comment w") (by decide) (by decide)
  · exact C6_isbn_lookup_amended.2.2.1 dbW "---" (by decide)

/-- Counterexample for C9: the code combines a short follow-up with the
German template `"(im Kontext von: ...)"`, not with the claimed English
`"(in context of: ...)"`. -/
theorem C9_counterexample :
    resolve_effective_question (some "What vehicle bus systems exist?") "what is LIN"
      = "what is LIN (im Kontext von: What vehicle bus systems exist?)"
    ∧ resolve_effective_question (some "What vehicle bus systems exist?") "what is LIN"
      ≠ "what is LIN (in context of: What vehicle bus systems exist?)" := by
  decide

/-- Claim C9 (amended): with a stored (non-empty) prior question and a new
question of at most 6 words the effective question is
`"<question> (im Kontext von: <prior question>)"`; longer questions, or
calls without a prior question, use the (stripped) question unchanged. -/
theorem C9_effective_question_amended :
    (∀ q : String, resolve_effective_question none q = pyStrip q)
    ∧ (∀ q lq : String, lq ≠ "" → (pyWords (pyStrip q)).length ≤ 6 →
        resolve_effective_question (some lq) q
          = pyStrip q ++ " (im Kontext von: " ++ lq ++ ")")
    ∧ (∀ q lq : String, 6 < (pyWords (pyStrip q)).length →
        resolve_effective_question (some lq) q = pyStrip q) := by
  refine ⟨fun q => rfl, ?_, ?_⟩
  · intro q lq hne hle
    simp [resolve_effective_question, hne, hle]
  · intro q lq hgt
    have hnle : ¬ (pyWords (pyStrip q)).length ≤ 6 := Nat.not_le.mpr hgt
    by_cases hne : lq = "" <;> simp [resolve_effective_question, hne, hnle]

/-- Witness for C9: the spec's follow-up scenario, with the German
template. -/
theorem C9_effective_question_amended_witness :
    resolve_effective_question (some "What vehicle bus systems exist?") "what is LIN"
      = pyStrip "what is LIN" ++ " (im Kontext von: "
          ++ "What vehicle bus systems exist?" ++ ")" :=
  C9_effective_question_amended.2.1 "what is LIN" "What vehicle bus systems exist?"
    (by decide) (by decide)

/-- Claim C10: an empty or whitespace-only question returns `("", [])`
immediately: no tool discovery, no RPC call, no generation-service call
(the event list is empty) and the session state is unchanged. -/
theorem C10_blank_question (env : AgentEnv) (cfg : AgentConfig) (st : SessionState)
    (q : String) (h : ∀ c ∈ q.data, c.isWhitespace) :
    answer_with_sources env cfg st q = ⟨[], .ok ("", []), st⟩ := by
  have hq : pyStrip q = "" := pyStrip_of_whitespace q h
  simp [answer_with_sources, hq]

/-- Witness for C10: the single-space question under the default
configuration. -/
theorem C10_blank_question_witness :
    answer_with_sources envA cfgA stFresh " " = ⟨[], .ok ("", []), stFresh⟩ :=
  C10_blank_question envA cfgA stFresh " " (by decide)

theorem mem_insertById (b x : BookRow) (l : List BookRow) :
    x ∈ insertById b l ↔ x = b ∨ x ∈ l := by
  induction l with
  | nil => simp [insertById]
  | cons y ys ih =>
    unfold insertById
    split
    · simp
    · simp [ih]
      tauto

theorem mem_sortById (l : List BookRow) (x : BookRow) :
    x ∈ sortById l ↔ x ∈ l := by
  induction l with
  | nil => simp [sortById]
  | cons y ys ih =>
    unfold sortById at ih ⊢
    rw [List.foldr_cons, mem_insertById]
    simp [ih]

theorem build_snippet_length_le (text query : String) (window : Nat) :
    (build_snippet text query window).data.length ≤ window := by
  unfold build_snippet
  dsimp only []
  split
  · simp
  · split
    · simp [strTake, List.length_take]
    · simp [strSlice, Nat.add_sub_cancel_left, List.length_take]

/-- Claim C5: a `call_tool` request whose tool body raises yields an error
response `"Tool failed: <reason>"` (error code present, `result` absent)
on the same connection; the connection keeps serving — messages around the
failing one are answered exactly as they would be alone, and every inbound
message receives exactly one response; an unknown tool name yields a
`"not_found"` error instead. -/
theorem C5_tool_call_robustness {Arg Out : Type} [Inhabited Arg]
    (srv : ServerModel Arg Out) (id : Option String) (params : CallParams Arg)
    (name : String) (tool : ServerTool Arg Out) (reason : String)
    (pre post : List (InboundMessage Arg))
    (rid2 : String) (params2 : CallParams Arg) (name2 : String)
    (hname : params.name = some name) (hne : name ≠ "")
    (hfind : (srv.tools.find? (fun t => t.1 == name)).map (fun t => t.2) = some tool)
    (hfail : tool.impl (prepare_arguments tool.wrapsInput (params.arguments.getD default))
        = .error reason)
    (hname2 : params2.name = some name2) (hne2 : name2 ≠ "")
    (hfind2 : srv.tools.find? (fun t => t.1 == name2) = none) :
    (handle_message srv (.payload id (some "call_tool") params)).error
      = some ("internal_error", "Tool failed: " ++ reason)
    ∧ (handle_message srv (.payload id (some "call_tool") params)).result = none
    ∧ handle_client srv (pre ++ .payload id (some "call_tool") params :: post)
        = handle_client srv pre
            ++ handle_message srv (.payload id (some "call_tool") params)
              :: handle_client srv post
    ∧ (∀ msgs : List (InboundMessage Arg), (handle_client srv msgs).length = msgs.length)
    ∧ call_tool srv rid2 params2
        = make_error_response rid2 ("Unknown tool '" ++ name2 ++ "'") "not_found" := by
  refine ⟨?_, ?_, ?_, ?_, ?_⟩
  · simp [handle_message, call_tool, hname, hne, hfind, hfail, make_error_response]
  · simp [handle_message, call_tool, hname, hne, hfind, hfail, make_error_response]
  · simp [handle_client]
  · intro msgs
    simp [handle_client]
  · simp [call_tool, hname2, hne2, hfind2, make_error_response]

/-- Witness for C5: in `srvC5`, calling the tool `"boom"` fails with
`"Tool failed: kaput"` while the connection still answers the surrounding
messages, and the unknown tool `"nosuch"` gets a `"not_found"` error. -/
theorem C5_tool_call_robustness_witness :
    (handle_message srvC5 (.payload none (some "call_tool") ⟨some "boom", some "args"⟩)).error
      = some ("internal_error", "Tool failed: " ++ "kaput")
    ∧ (handle_message srvC5 (.payload none (some "call_tool") ⟨some "boom", some "args"⟩)).result
      = none
    ∧ handle_client srvC5
        ([.invalidJson] ++ .payload none (some "call_tool") ⟨some "boom", some "args"⟩
          :: [.payload (some "2") (some "list_tools") ⟨none, none⟩])
        = handle_client srvC5 [.invalidJson]
            ++ handle_message srvC5 (.payload none (some "call_tool") ⟨some "boom", some "args"⟩)
              :: handle_client srvC5 [.payload (some "2") (some "list_tools") ⟨none, none⟩]
    ∧ (∀ msgs : List (InboundMessage String), (handle_client srvC5 msgs).length = msgs.length)
    ∧ call_tool srvC5 "2" ⟨some "nosuch", none⟩
        = make_error_response "2" ("Unknown tool '" ++ "nosuch" ++ "'") "not_found" :=
  C5_tool_call_robustness srvC5 none ⟨some "boom", some "args"⟩ "boom"
    ⟨"always fails", false, fun _ => .error "kaput"⟩ "kaput"
    [.invalidJson] [.payload (some "2") (some "list_tools") ⟨none, none⟩]
    "2" ⟨some "nosuch", none⟩ "nosuch"
    rfl (by decide) rfl rfl rfl (by decide) rfl

set_option maxRecDepth 40000 in
/-- Counterexample for C7: for the annotation `c7text` and the query
`"foo OR keyword"` the query string does not occur in the annotation,
`"keyword"` is the (only) matched keyword and first occurs at index 200,
yet the hit's snippet is the first 200 characters of the annotation, not
a window centered on that keyword — the claimed keyword-centered
fallback step does not exist in the code. -/
theorem C7_counterexample :
    strFind (strLower c7text) (strLower c7query) = none
    ∧ parse_boolean_query c7query = [["foo"], ["keyword"]]
    ∧ likeContains c7text "foo" = false
    ∧ likeContains c7text "keyword" = true
    ∧ strFind (strLower c7text) (strLower "keyword") = some 200
    ∧ search_fulltext dbC7 c7query 10 = [⟨5, "T5", none, strTake c7text 200⟩]
    ∧ strTake c7text 200 ≠ strSlice c7text 100 300 := by
  decide

/-- Claim C7 (amended): the snippet is a 200-character window of the
stripped annotation starting 100 characters before the first
case-insensitive occurrence of the original, unparsed query string
(clipped at the text borders); when the query does not occur, the
fallback chain is the first 200 characters of the annotation, then the
title — there is no intermediate keyword-centered window.  Every hit
produced by `search_fulltext` carries exactly this snippet of its row. -/
theorem C7_snippet_amended :
    (∀ (text query : String) (idx : Nat), pyStrip text ≠ "" →
        strFind (strLower (pyStrip text)) (strLower query) = some idx →
        build_snippet text query 200
          = strSlice (pyStrip text) (idx - 100) (idx - 100 + 200))
    ∧ (∀ text query : String, pyStrip text ≠ "" →
        strFind (strLower (pyStrip text)) (strLower query) = none →
        build_snippet text query 200 = strTake (pyStrip text) 200)
    ∧ (∀ text query : String, (build_snippet text query 200).data.length ≤ 200)
    ∧ (∀ (b : BookRow) (raw : String), pyStrip (b.comments.getD "") = "" →
        hit_snippet b raw = if b.title = "" then "" else b.title)
    ∧ (∀ (db : MetadataDb) (query : String) (limit : Nat),
        ∀ h ∈ search_fulltext db query limit,
          ∃ b ∈ db.books, h = ⟨b.id, b.title, b.isbn, hit_snippet b (pyStrip query)⟩) := by
  refine ⟨?_, ?_, ?_, ?_, ?_⟩
  · intro text query idx hne hfind
    unfold build_snippet
    dsimp only []
    rw [if_neg hne, hfind]
  · intro text query hne hfind
    unfold build_snippet
    dsimp only []
    rw [if_neg hne, hfind]
  · intro text query
    exact build_snippet_length_le text query 200
  · intro b raw hcl
    unfold hit_snippet
    dsimp only []
    rw [if_pos]
    unfold build_snippet
    rw [if_pos hcl]
  · intro db query limit h hmem
    unfold search_fulltext at hmem
    dsimp only [] at hmem
    split at hmem
    · simp at hmem
    · split at hmem
      · simp at hmem
      · rw [List.mem_map] at hmem
        obtain ⟨b, hb, rfl⟩ := hmem
        refine ⟨b, ?_, rfl⟩
        have hb2 : b ∈ sortById (db.books.filter
            (fun r => groupsMatch r (parse_boolean_query (pyStrip query)))) :=
          List.take_subset _ _ hb
        exact (List.mem_filter.mp ((mem_sortById _ _).mp hb2)).1

set_option maxRecDepth 40000 in
/-- Witness for C7: the amended snippet facts evaluated on a concrete
annotation, both with the query present and absent, and the title
fallback for a blank annotation. -/
theorem C7_snippet_amended_witness :
    build_snippet "  hello world  " "world" 200
      = strSlice (pyStrip "  hello world  ") (6 - 100) (6 - 100 + 200)
    ∧ build_snippet c7text c7query 200 = strTake (pyStrip c7text) 200
    ∧ hit_snippet ⟨4, "Only Title", none, some "   "⟩ "anything"
      = (if ("Only Title" : String) = "" then "" else "Only Title")
    ∧ (∃ b ∈ dbC7.books,
        (⟨5, "T5", none, strTake c7text 200⟩ : FulltextHit)
          = ⟨b.id, b.title, b.isbn, hit_snippet b (pyStrip c7query)⟩) := by
  refine ⟨?_, ?_, ?_, ?_⟩
  · exact C7_snippet_amended.1 "  hello world  " "world" 6 (by decide) (by decide)
  · exact C7_snippet_amended.2.1 c7text c7query (by decide) (by decide)
  · exact C7_snippet_amended.2.2.2.1 ⟨4, "Only Title", none, some "   "⟩ "anything" (by decide)
  · exact C7_snippet_amended.2.2.2.2 dbC7 c7query 10 ⟨5, "T5", none, strTake c7text 200⟩
      (by decide)

/-- Counterexample for C1: with `max_total_hits = 0` (a configuration with
`M = 0`) a single search round still aggregates one hit — the merge loop
appends a hit before checking the cap — so the returned hit list has one
element, exceeding `M`. -/
theorem C1_counterexample :
    (answer_with_sources envA cfgM0 stFresh "frage").result
      = Except.ok ("ANSWER",
          [⟨⟨some 7, "Title A", some "111", "snippet a", some "foo"⟩,
            some "long excerpt", some "metadata.comments"⟩])
    ∧ ¬ ((1 : Nat) ≤ cfgM0.max_total_hits) := by
  constructor
  · decide
  · decide

/-- Claim C1 (amended): one `answer_with_sources` call executes at most
`max_search_rounds` search rounds, and whenever `max_total_hits ≥ 1` the
hit list it returns contains at most `max_total_hits` hits (for
`max_total_hits = 0` the append-before-check merge can still return one
hit). -/
theorem C1_search_bounds (env : AgentEnv) (cfg : AgentConfig) (st : SessionState)
    (q : String) :
    searchRounds (answer_with_sources env cfg st q).events ≤ cfg.max_search_rounds
    ∧ (1 ≤ cfg.max_total_hits →
        ∀ text hits, (answer_with_sources env cfg st q).result = Except.ok (text, hits) →
          hits.length ≤ cfg.max_total_hits) := by
  unfold answer_with_sources
  dsimp only []
  split
  · refine ⟨by simp [searchRounds], ?_⟩
    intro hM text hits hres
    simp at hres
    rcases hres with ⟨h1, h2⟩
    subst h2
    simp
  · split
    · rename_i evs1 e1 heq1
      have hrf1 : RoundFree evs1 := by
        have h := roundFree_ensure_tools_cached env st
        rw [heq1] at h
        exact h
      refine ⟨?_, ?_⟩
      · simp [searchRounds, countP_isRoundStart_of_roundFree hrf1]
      · intro hM text hits hres
        simp at hres
        rcases hres with ⟨h1, h2⟩
        subst h2
        simp
    · rename_i evs1 st1 heq1
      have hrf1 : RoundFree evs1 := by
        have h := roundFree_ensure_tools_cached env st
        rw [heq1] at h
        exact h
      have hc1 : evs1.countP isRoundStart = 0 := countP_isRoundStart_of_roundFree hrf1
      split
      · rename_i evs2 e2 heq2
        have hc2 : evs2.countP isRoundStart ≤ cfg.max_search_rounds := by
          have h := run_rounds_countP_le env cfg st1 (pyStrip q)
            (resolve_effective_question st1.last_question (pyStrip q))
            cfg.max_search_rounds 0 ⟨[], [], []⟩
          rw [heq2] at h
          exact h
        refine ⟨?_, ?_⟩
        · simp [searchRounds, List.countP_append, hc1]
          exact hc2
        · intro hM text hits hres
          simp at hres
          rcases hres with ⟨h1, h2⟩
          subst h2
          simp
      · rename_i evs2 ls heq2
        have hc2 : evs2.countP isRoundStart ≤ cfg.max_search_rounds := by
          have h := run_rounds_countP_le env cfg st1 (pyStrip q)
            (resolve_effective_question st1.last_question (pyStrip q))
            cfg.max_search_rounds 0 ⟨[], [], []⟩
          rw [heq2] at h
          exact h
        split
        · refine ⟨?_, ?_⟩
          · simp [searchRounds, List.countP_append, hc1]
            exact hc2
          · intro hM text hits hres
            simp at hres
            rcases hres with ⟨h1, h2⟩
            subst h2
            simp
        · rename_i hne
          have hrfe : RoundFree (enrich_hits_with_excerpts env cfg st1 ls.all_hits).1 :=
            roundFree_enrich_hits env cfg st1 ls.all_hits
          have hce : (enrich_hits_with_excerpts env cfg st1 ls.all_hits).1.countP
              isRoundStart = 0 := countP_isRoundStart_of_roundFree hrfe
          rcases hfc : env.finalChat (pyStrip q)
              (enrich_hits_with_excerpts env cfg st1 ls.all_hits).2 with e | text0
          · refine ⟨?_, ?_⟩
            · simp [searchRounds, List.countP_append, List.countP_cons, hc1, hce,
                isRoundStart]
              exact hc2
            · intro hM text hits hres
              simp at hres
          · refine ⟨?_, ?_⟩
            · simp [searchRounds, List.countP_append, List.countP_cons, hc1, hce,
                isRoundStart]
              exact hc2
            · intro hM text hits hres
              simp at hres
              rcases hres with ⟨h1, h2⟩
              subst h2
              rw [enrich_hits_length]
              refine run_rounds_hits_le env cfg st1 (pyStrip q)
                (resolve_effective_question st1.last_question (pyStrip q))
                cfg.max_search_rounds 0 ⟨[], [], []⟩ ?_ ls (by rw [heq2])
              simpa using hM

/-- Witness for C1: the bounds evaluated on a concrete successful run with
the default configuration (3 rounds, at most 20 hits). -/
theorem C1_search_bounds_witness :
    searchRounds (answer_with_sources envA cfgA stFresh "what is foo").events
      ≤ cfgA.max_search_rounds
    ∧ ([⟨⟨some 7, "Title A", some "111", "snippet a", some "foo"⟩,
          some "long excerpt", some "metadata.comments"⟩,
        ⟨⟨some 8, "Title B", none, "snippet b", some "foo"⟩, none, none⟩] :
          List EnrichedHit).length ≤ cfgA.max_total_hits := by
  refine ⟨(C1_search_bounds envA cfgA stFresh "what is foo").1, ?_⟩
  exact (C1_search_bounds envA cfgA stFresh "what is foo").2 (by decide) "ANSWER" _ (by decide)

/-- Claim C2: within one answer call the aggregated hit list never holds
two hits with the same identity key `(book_id, isbn)`: the returned hit
list has pairwise distinct identity keys, and merging round hits into an
aggregate satisfying the dedup invariant keeps every existing entry in
place (first occurrence wins) while dropping any new hit whose identity
key was already seen. -/
theorem C2_identity_key_dedup (env : AgentEnv) (cfg : AgentConfig) (st : SessionState)
    (q : String) :
    (∀ text hits, (answer_with_sources env cfg st q).result = Except.ok (text, hits) →
        (hits.map (fun e => e.hit.identityKey)).Nodup)
    ∧ (∀ (cap : Nat) (new agg : List SearchHit) (seen : List IdKey), KeysInv agg seen →
        ((merge_hits_capped cap new agg seen).1.map SearchHit.identityKey).Nodup
        ∧ ∃ t, (merge_hits_capped cap new agg seen).1 = agg ++ t
            ∧ ∀ h ∈ t, h.identityKey ∉ seen) := by
  constructor
  · intro text hits hres
    unfold answer_with_sources at hres
    dsimp only [] at hres
    split at hres
    · simp at hres
      rcases hres with ⟨h1, h2⟩
      subst h2
      simp
    · split at hres
      · simp at hres
        rcases hres with ⟨h1, h2⟩
        subst h2
        simp
      · rename_i evs1 st1 heq1
        split at hres
        · simp at hres
          rcases hres with ⟨h1, h2⟩
          subst h2
          simp
        · rename_i evs2 ls heq2
          split at hres
          · simp at hres
            rcases hres with ⟨h1, h2⟩
            subst h2
            simp
          · rcases hfc : env.finalChat (pyStrip q)
                (enrich_hits_with_excerpts env cfg st1 ls.all_hits).2 with e | text0 <;>
              rw [hfc] at hres
            · simp at hres
            · simp at hres
              rcases hres with ⟨h1, h2⟩
              subst h2
              have hkeys := run_rounds_keys env cfg st1 (pyStrip q)
                (resolve_effective_question st1.last_question (pyStrip q))
                cfg.max_search_rounds 0 ⟨[], [], []⟩ ⟨by simp, by simp⟩ ls (by rw [heq2])
              have hmap : ((enrich_hits_with_excerpts env cfg st1 ls.all_hits).2.map
                  (fun e => e.hit.identityKey))
                  = ls.all_hits.map SearchHit.identityKey := by
                rw [show (fun (e : EnrichedHit) => e.hit.identityKey)
                    = SearchHit.identityKey ∘ (fun e => e.hit) from rfl]
                rw [← List.map_map, enrich_hits_map_hit]
              rw [hmap]
              exact hkeys.1
  · intro cap new agg seen hinv
    exact ⟨((merge_hits_capped_keys cap new agg seen hinv).1).1,
      (merge_hits_capped_keys cap new agg seen hinv).2⟩

/-- Witness for C2: the dedup facts on a concrete run (two hits with
distinct keys) and one concrete merge starting from the empty aggregate. -/
theorem C2_identity_key_dedup_witness :
    (([⟨⟨some 7, "Title A", some "111", "snippet a", some "foo"⟩,
        some "long excerpt", some "metadata.comments"⟩,
       ⟨⟨some 8, "Title B", none, "snippet b", some "foo"⟩, none, none⟩] :
        List EnrichedHit).map (fun e => e.hit.identityKey)).Nodup
    ∧ (((merge_hits_capped 5 [⟨some 7, "T", some "111", "s", none⟩] [] []).1.map
          SearchHit.identityKey).Nodup
        ∧ ∃ t, (merge_hits_capped 5 [⟨some 7, "T", some "111", "s", none⟩] [] []).1
            = [] ++ t ∧ ∀ h ∈ t, h.identityKey ∉ ([] : List IdKey)) := by
  constructor
  · exact (C2_identity_key_dedup envA cfgA stFresh "what is foo").1 "ANSWER" _ (by decide)
  · exact (C2_identity_key_dedup envA cfgA stFresh "what is foo").2 5
      [⟨some 7, "T", some "111", "s", none⟩] [] [] ⟨by simp, by simp⟩

/-- Claim C3: once the aggregated hit count reaches
`min_hits_before_stop` at a round boundary (the `.roundEnd` marker
carries that count), no further search round is started within the same
call, even when `max_search_rounds` has not been reached. -/
theorem C3_min_hits_early_stop (env : AgentEnv) (cfg : AgentConfig) (st : SessionState)
    (q : String) (k c : Nat)
    (hEnd : AgentEvent.roundEnd k c ∈ (answer_with_sources env cfg st q).events)
    (hMin : cfg.min_hits_before_stop ≤ c) :
    AgentEvent.roundStart (k + 1) ∉ (answer_with_sources env cfg st q).events := by
  rcases answer_events_shape env cfg st q with ⟨pre, post, st1, hdec, hpre, hpost⟩ | hrf
  · rw [hdec] at hEnd ⊢
    have hmid : AgentEvent.roundEnd k c ∈ (run_rounds env cfg st1 (pyStrip q)
        (resolve_effective_question st1.last_question (pyStrip q))
        0 cfg.max_search_rounds ⟨[], [], []⟩).1 := by
      simp only [List.mem_append] at hEnd
      rcases hEnd with (h | h) | h
      · exact absurd h (roundFree_no_roundEnd hpre k c)
      · exact h
      · exact absurd h (roundFree_no_roundEnd hpost k c)
    have hnot := run_rounds_early_stop env cfg st1 (pyStrip q)
      (resolve_effective_question st1.last_question (pyStrip q))
      cfg.max_search_rounds 0 ⟨[], [], []⟩ k c hmid hMin
    intro hstart
    simp only [List.mem_append] at hstart
    rcases hstart with (h | h) | h
    · exact roundFree_no_roundStart hpre _ h
    · exact hnot h
    · exact roundFree_no_roundStart hpost _ h
  · exact absurd hEnd (roundFree_no_roundEnd hrf k c)

/-- Witness for C3: in `envHits3` round 0 already aggregates 3 hits
(`min_hits_before_stop = 3` in the default configuration), and no round 1
is started although `max_search_rounds = 3`. -/
theorem C3_min_hits_early_stop_witness :
    AgentEvent.roundStart 1 ∉ (answer_with_sources envHits3 cfgA stFresh "what is foo").events :=
  C3_min_hits_early_stop envHits3 cfgA stFresh "what is foo" 0 3 (by decide) (by decide)

/-- Counterexample for C4: when the final generation-service call raises,
the exception propagates out of `answer_with_sources`, yet the session
state has already been replaced by the new question and hits — the state
observable after the failing call differs from the state before it. -/
theorem C4_counterexample :
    (answer_with_sources envChatFails cfgA stFresh "kurze frage").result
      = Except.error "auth failure"
    ∧ stFresh.last_question = none
    ∧ (answer_with_sources envChatFails cfgA stFresh "kurze frage").state.last_question
      = some "kurze frage"
    ∧ (answer_with_sources envChatFails cfgA stFresh "kurze frage").state ≠ stFresh := by
  refine ⟨by decide, rfl, by decide, by decide⟩

/-- Claim C4 (amended): the session state is mutated only when the call
reaches the final generation stage: every execution that ends before the
final generation-service call (in particular every failure surfaced as a
transport error during discovery or search) leaves `last_question` and
`last_hits` unchanged; the state is updated just before the final call,
so an execution that fails at the final generation-service call leaves
the new state (`last_question` = the stripped question) in place. -/
theorem C4_session_state_amended (env : AgentEnv) (cfg : AgentConfig) (st : SessionState)
    (q : String) :
    (AgentEvent.finalChatCall ∉ (answer_with_sources env cfg st q).events →
      (answer_with_sources env cfg st q).state.last_question = st.last_question
      ∧ (answer_with_sources env cfg st q).state.last_hits = st.last_hits)
    ∧ (∀ e, (answer_with_sources env cfg st q).result = Except.error e →
        (answer_with_sources env cfg st q).state.last_question = some (pyStrip q)
        ∧ AgentEvent.finalChatCall ∈ (answer_with_sources env cfg st q).events) := by
  unfold answer_with_sources
  dsimp only []
  split
  · exact ⟨fun _ => ⟨rfl, rfl⟩, fun e he => by simp at he⟩
  · split
    · exact ⟨fun _ => ⟨rfl, rfl⟩, fun e he => by simp at he⟩
    · rename_i evs1 st1 heq1
      have hpres : st1.last_question = st.last_question ∧ st1.last_hits = st.last_hits :=
        ensure_tools_cached_preserves env st st1 (by rw [heq1])
      split
      · exact ⟨fun _ => hpres, fun e he => by simp at he⟩
      · rename_i evs2 ls heq2
        split
        · exact ⟨fun _ => hpres, fun e he => by simp at he⟩
        · rcases hfc : env.finalChat (pyStrip q)
              (enrich_hits_with_excerpts env cfg st1 ls.all_hits).2 with e0 | text0
          · refine ⟨?_, ?_⟩
            · intro hnot
              exfalso
              exact hnot (by simp)
            · intro e he
              exact ⟨rfl, by simp⟩
          · refine ⟨?_, ?_⟩
            · intro hnot
              exfalso
              exact hnot (by simp)
            · intro e he
              simp at he

/-- Witness for C4: a search-transport failure leaves the session state
untouched, and a final-chat failure leaves the updated question behind. -/
theorem C4_session_state_amended_witness :
    ((answer_with_sources envSearchFails cfgA stFresh "frage").state.last_question
        = stFresh.last_question
      ∧ (answer_with_sources envSearchFails cfgA stFresh "frage").state.last_hits
        = stFresh.last_hits)
    ∧ ((answer_with_sources envChatFails cfgA stFresh "frage").state.last_question
        = some (pyStrip "frage")
      ∧ AgentEvent.finalChatCall
          ∈ (answer_with_sources envChatFails cfgA stFresh "frage").events) := by
  constructor
  · exact (C4_session_state_amended envSearchFails cfgA stFresh "frage").1 (by decide)
  · exact (C4_session_state_amended envChatFails cfgA stFresh "frage").2 "auth failure" (by decide)

end Calibre
